import Mathlib

/-!
Verification of the coordination core of the distributed-agent-network
repository: the Redis-backed task queue and result store (lib/messaging.py),
the heartbeat-lease agent registry (lib/registry.py), and the Docker domain
spawner (lib/spawner.py).

The shared Redis store is embedded as a record of typed key families, one
field per keyspace used by the code.  Redis lists are Lean lists whose index
0 is the Redis head (the LPUSH side); Redis sets are duplicate-free lists in
insertion order; Redis hashes are records of optional fields, where the
all-none record stands for an absent key (a Redis hash with no fields does
not exist, and HGETALL returns an empty dict for it).  HSET with a field
mapping merges the given fields into the hash.  Serialization through
`model_dump_json` / `model_validate_json` and `json.dumps` / `json.loads`
round-trips, so serialized values in the store are modelled by the
structured values themselves; pub/sub channels carry no persistent state and
are not modelled.  Wall-clock timestamps are threaded as explicit `now`
string arguments.  Python exceptions (pydantic validation errors raised by
`from_dict` on a partial hash) are modelled with `Except`.
-/

deriving instance DecidableEq for Except

namespace DAN

/-! ## Data model (messaging.py) -/

/-- Payload of a TaskMessage as built by `publish_task`:
description, requirements list, context dict. -/
structure TaskPayload where
  description : String
  requirements : List String
  context : List (String × String)
deriving DecidableEq, Repr

/-- Metadata of a TaskMessage as built by `publish_task`. -/
structure TaskMeta where
  priority : String
  timeout_seconds : Nat
deriving DecidableEq, Repr

/-- TaskMessage pydantic model (messaging.py).  The `task_id` and
`timestamp` default factories (uuid4, now) are threaded in by callers. -/
structure TaskMessage where
  task_id : String
  type : String
  source : String
  destination : String
  timestamp : String
  payload : TaskPayload
  metadata : TaskMeta
deriving DecidableEq, Repr

/-- TaskResult pydantic model (messaging.py): `task_id` required, `status`
defaults to "pending", the rest optional.  The output dict is modelled
structurally (json.dumps/loads round-trips). -/
structure TaskResult where
  task_id : String
  status : String
  output : Option (List (String × String))
  error : Option String
  started_at : Option String
  completed_at : Option String
deriving DecidableEq, Repr

/-- Python-level exception raised out of the embedded code: a pydantic
validation error from `from_dict` on a hash missing required fields. -/
inductive PyErr where
  | validationError
deriving DecidableEq, Repr

/-- The Redis hash stored at key results:task_id — one optional field per
TaskResult field.  The all-none hash stands for an absent key. -/
structure ResultHash where
  task_id? : Option String
  status? : Option String
  output? : Option (List (String × String))
  error? : Option String
  started_at? : Option String
  completed_at? : Option String
deriving DecidableEq, Repr

/-- Absent results hash. -/
def ResultHash.empty : ResultHash := ⟨none, none, none, none, none, none⟩

/-- HSET with a field mapping on a results hash: fields present in the
mapping `m` are written, the rest keep their old value. -/
def ResultHash.hset (o m : ResultHash) : ResultHash :=
  ⟨m.task_id? <|> o.task_id?, m.status? <|> o.status?, m.output? <|> o.output?,
   m.error? <|> o.error?, m.started_at? <|> o.started_at?,
   m.completed_at? <|> o.completed_at?⟩

/-- TaskResult.from_dict (pydantic model_validate): `task_id` is required —
a hash without it raises a validation error — `status` defaults to
"pending", the other fields default to None. -/
def ResultHash.parse (h : ResultHash) : Except PyErr TaskResult :=
  match h.task_id? with
  | none => .error .validationError
  | some tid =>
      .ok ⟨tid, h.status?.getD "pending", h.output?, h.error?,
           h.started_at?, h.completed_at?⟩

/-! ## The shared store

One field per key family used by messaging.py and registry.py.  Redis list
index 0 is the head (LPUSH side); RPOPLPUSH pops the last element of the
source and pushes it at the head of the destination. -/

/-- Registry hash stored at key agents:info:agent_id — one optional field
per AgentInfo field; all-none stands for an absent key. -/
structure AgentInfoHash where
  agent_id? : Option String
  role? : Option String
  domain_type? : Option String
  status? : Option String
  container_id? : Option String
  created_at? : Option String
  last_heartbeat? : Option String
deriving DecidableEq, Repr

/-- Absent agent-info hash. -/
def AgentInfoHash.empty : AgentInfoHash := ⟨none, none, none, none, none, none, none⟩

/-- HSET with a field mapping on an agent-info hash. -/
def AgentInfoHash.hset (o m : AgentInfoHash) : AgentInfoHash :=
  ⟨m.agent_id? <|> o.agent_id?, m.role? <|> o.role?,
   m.domain_type? <|> o.domain_type?, m.status? <|> o.status?,
   m.container_id? <|> o.container_id?, m.created_at? <|> o.created_at?,
   m.last_heartbeat? <|> o.last_heartbeat?⟩

/-- The whole shared Redis keyspace used by messaging.py and registry.py. -/
structure Store where
  /-- tasks:pending:domain lists (serialized TaskMessage entries). -/
  pending : String → List TaskMessage
  /-- tasks:active:domain lists. -/
  active : String → List TaskMessage
  /-- results:task_id hashes. -/
  results : String → ResultHash
  /-- results:task_id:logs lists. -/
  taskLogs : String → List String
  /-- agents:all set. -/
  agentsAll : List String
  /-- agents:domains set. -/
  agentsDomains : List String
  /-- agents:domains:type sets. -/
  agentsDomainsByType : String → List String
  /-- agents:workers set. -/
  agentsWorkers : List String
  /-- agents:main string key. -/
  agentsMain : Option String
  /-- agents:info:agent_id hashes. -/
  agentInfo : String → AgentInfoHash
  /-- agents:heartbeat:agent_id keys (value = timestamp; presence = live
  lease, key expiry is an external event not triggered by these ops). -/
  heartbeatKey : String → Option String

/-- The store with every key absent. -/
def Store.empty : Store :=
  ⟨fun _ => [], fun _ => [], fun _ => .empty, fun _ => [], [], [],
   fun _ => [], [], none, fun _ => .empty, fun _ => none⟩

/-- Pointwise update of a String-indexed key family. -/
def upd {α : Type} (f : String → α) (k : String) (v : α) : String → α :=
  fun x => if x = k then v else f x

/-- SADD: append the member if absent (Redis sets are unordered; we fix
insertion order as the iteration order of SMEMBERS). -/
def sadd (s : List String) (x : String) : List String :=
  if x ∈ s then s else s ++ [x]

/-- SREM: remove the member. -/
def srem (s : List String) (x : String) : List String :=
  s.filter (fun y => y ≠ x)

/-! ## Task queue and result operations (messaging.py) -/

/-- Arguments of one `publish_task` call, together with the `task_id` and
`timestamp` the pydantic default factories produce during that call. -/
structure PublishCall where
  description : String
  requirements : List String
  context : List (String × String)
  priority : String
  timeout_seconds : Nat
  source : String
  task_id : String
  timestamp : String
deriving DecidableEq, Repr

/-- The TaskMessage `publish_task` constructs from its arguments. -/
def mkTaskMessage (domain : String) (c : PublishCall) : TaskMessage :=
  ⟨c.task_id, "task_assignment", c.source, domain, c.timestamp,
   ⟨c.description, c.requirements, c.context⟩,
   ⟨c.priority, c.timeout_seconds⟩⟩

/-- AgentMessaging._init_result: HSET of TaskResult(task_id, "pending")
.to_dict(), which drops the None fields. -/
def init_result (s : Store) (task_id : String) : Store :=
  let h := (s.results task_id).hset ⟨some task_id, some "pending", none, none, none, none⟩
  { s with results := upd s.results task_id h }

/-- AgentMessaging.publish_task: build the TaskMessage, LPUSH its JSON onto
tasks:pending:domain, initialize the result hash, publish a notification
(pub/sub, no persistent state), return the task id. -/
def publish_task (s : Store) (domain : String) (c : PublishCall) : Store × String :=
  let task := mkTaskMessage domain c
  let s1 := { s with pending := upd s.pending domain (task :: s.pending domain) }
  let s2 := init_result s1 task.task_id
  (s2, task.task_id)

/-- AgentMessaging._update_result for status="in_progress": the kwargs grow
a started_at stamp, then HSET merges them into the hash. -/
def update_result_in_progress (s : Store) (task_id now : String) : Store :=
  let h := (s.results task_id).hset ⟨none, some "in_progress", none, none, some now, none⟩
  { s with results := upd s.results task_id h }

/-- AgentMessaging.get_next_task: RPOPLPUSH tasks:pending:domain onto
tasks:active:domain (the blocking variant's successful path is the same
single atomic primitive; with no entry it returns None).  On success the
result hash is set to in_progress with started_at stamped. -/
def get_next_task (s : Store) (domain : String) (now : String) :
    Store × Option TaskMessage :=
  match (s.pending domain).getLast? with
  | none => (s, none)
  | some task =>
      let s1 := { s with
        pending := upd s.pending domain (s.pending domain).dropLast,
        active := upd s.active domain (task :: s.active domain) }
      (update_result_in_progress s1 task.task_id now, some task)

/-- AgentMessaging.complete_task: LREM count=1 of the task's JSON from
tasks:active:domain — removes the first matching occurrence from the head. -/
def complete_task (s : Store) (domain : String) (task : TaskMessage) : Store :=
  { s with active := upd s.active domain ((s.active domain).erase task) }

/-- AgentMessaging.get_queue_length: LLEN tasks:pending:domain. -/
def get_queue_length (s : Store) (domain : String) : Nat :=
  (s.pending domain).length

/-- Python truthiness of the optional `error` argument: None and the empty
string are falsy. -/
def errTruthy : Option String → Bool
  | none => false
  | some e => e ≠ ""

/-- AgentMessaging.publish_result: HSET status, output (json.dumps) and
completed_at, plus error only when it is truthy, then publish a completion
event (pub/sub, no persistent state). -/
def publish_result (s : Store) (task_id : String)
    (output : List (String × String)) (status : String)
    (error : Option String) (now : String) : Store :=
  let mapping : ResultHash :=
    ⟨none, some status, some output,
     if errTruthy error then error else none, none, some now⟩
  { s with results := upd s.results task_id ((s.results task_id).hset mapping) }

/-- AgentMessaging.get_result on the immediate path (timeout=0; with a
positive timeout the wait loop ends in the same final HGETALL): HGETALL of
results:task_id, None when the hash is absent, otherwise
TaskResult.from_dict with the output field json-parsed. -/
def get_result (s : Store) (task_id : String) : Except PyErr (Option TaskResult) :=
  let data := s.results task_id
  if data = .empty then .ok none
  else (data.parse).map some

/-! ## Agent registry (registry.py) -/

/-- AgentInfo pydantic model (registry.py). -/
structure AgentInfo where
  agent_id : String
  role : String
  domain_type : Option String
  status : String
  container_id : Option String
  created_at : String
  last_heartbeat : Option String
deriving DecidableEq, Repr

/-- AgentInfo.from_dict (pydantic model_validate): `agent_id` and `role` are
required — a hash missing either raises a validation error — `status`
defaults to "starting", `created_at` has a now() default factory (modelled
as ""; every hash written by `register` carries created_at, so the default
is never exercised here), the optional fields default to None. -/
def AgentInfoHash.parse (h : AgentInfoHash) : Except PyErr AgentInfo :=
  match h.agent_id?, h.role? with
  | some a, some r =>
      .ok ⟨a, r, h.domain_type?, h.status?.getD "starting", h.container_id?,
           h.created_at?.getD "", h.last_heartbeat?⟩
  | _, _ => .error .validationError

/-- AgentRegistry.get_agent: HGETALL agents:info:agent_id, None when the
hash is absent, otherwise AgentInfo.from_dict (which can raise). -/
def get_agent (s : Store) (agent_id : String) : Except PyErr (Option AgentInfo) :=
  let data := s.agentInfo agent_id
  if data = .empty then .ok none
  else (data.parse).map some

/-- AgentRegistry.register: build AgentInfo with status="active", then in
one pipeline HSET its to_dict (None fields dropped), SADD agents:all, the
role-dependent set writes (agents:main / agents:domains plus the per-type
set when domain_type is truthy / agents:workers), and SETEX the heartbeat
lease.  Returns the constructed AgentInfo. -/
def register (s : Store) (agent_id role : String)
    (domain_type container_id : Option String) (now : String) : Store × AgentInfo :=
  let agent : AgentInfo := ⟨agent_id, role, domain_type, "active", container_id, now, none⟩
  let info := (s.agentInfo agent_id).hset
    ⟨some agent_id, some role, domain_type, some "active", container_id, some now, none⟩
  let s1 := { s with agentInfo := upd s.agentInfo agent_id info,
                     agentsAll := sadd s.agentsAll agent_id }
  let s2 :=
    if role = "main" then { s1 with agentsMain := some agent_id }
    else if role = "domain" then
      let sd := { s1 with agentsDomains := sadd s1.agentsDomains agent_id }
      match domain_type with
      | some dt =>
          if dt = "" then sd
          else
            let byType := upd sd.agentsDomainsByType dt (sadd (sd.agentsDomainsByType dt) agent_id)
            { sd with agentsDomainsByType := byType }
      | none => sd
    else if role = "worker" then { s1 with agentsWorkers := sadd s1.agentsWorkers agent_id }
    else s1
  ({ s2 with heartbeatKey := upd s2.heartbeatKey agent_id (some now) }, agent)

/-- AgentRegistry.deregister: get_agent first (False when absent), then in
one pipeline SREM agents:all, the role-dependent set removals (DEL
agents:main / SREM agents:domains plus the per-type set when the stored
domain_type is truthy / SREM agents:workers), DEL the info hash and DEL the
heartbeat lease. -/
def deregister (s : Store) (agent_id : String) : Except PyErr (Store × Bool) := do
  let info? ← get_agent s agent_id
  match info? with
  | none => .ok (s, false)
  | some info =>
      let s1 := { s with agentsAll := srem s.agentsAll agent_id }
      let s2 :=
        if info.role = "main" then { s1 with agentsMain := none }
        else if info.role = "domain" then
          let sd := { s1 with agentsDomains := srem s1.agentsDomains agent_id }
          match info.domain_type with
          | some dt =>
              if dt = "" then sd
              else
                let byType := upd sd.agentsDomainsByType dt (srem (sd.agentsDomainsByType dt) agent_id)
                { sd with agentsDomainsByType := byType }
          | none => sd
        else if info.role = "worker" then { s1 with agentsWorkers := srem s1.agentsWorkers agent_id }
        else s1
      .ok ({ s2 with agentInfo := upd s2.agentInfo agent_id .empty,
                     heartbeatKey := upd s2.heartbeatKey agent_id none }, true)

/-- AgentRegistry.heartbeat: SETEX the lease key and HSET the single
last_heartbeat field of the info hash (both unconditional), return True. -/
def heartbeat (s : Store) (agent_id now : String) : Store × Bool :=
  let info := (s.agentInfo agent_id).hset ⟨none, none, none, none, none, none, some now⟩
  ({ s with heartbeatKey := upd s.heartbeatKey agent_id (some now),
            agentInfo := upd s.agentInfo agent_id info }, true)

/-- AgentRegistry.is_healthy: EXISTS agents:heartbeat:agent_id > 0. -/
def is_healthy (s : Store) (agent_id : String) : Bool :=
  (s.heartbeatKey agent_id).isSome

/-- AgentRegistry.get_main_orchestrator: GET agents:main; when truthy,
get_agent on it. -/
def get_main_orchestrator (s : Store) : Except PyErr (Option AgentInfo) :=
  match s.agentsMain with
  | none => .ok none
  | some agent_id => if agent_id = "" then .ok none else get_agent s agent_id

/-- The loop shared by list_agents / get_domain_orchestrators: get_agent on
each member id, keeping the found records in iteration order (a validation
error anywhere propagates, as in the Python for-loop). -/
def collectAgents (s : Store) : List String → Except PyErr (List AgentInfo)
  | [] => .ok []
  | a :: rest => do
      let i? ← get_agent s a
      let more ← collectAgents s rest
      match i? with
      | some i => .ok (i :: more)
      | none => .ok more

/-- AgentRegistry.get_domain_orchestrators: SMEMBERS of the per-type set
when domain_type is truthy, of agents:domains otherwise, then get_agent on
each member. -/
def get_domain_orchestrators (s : Store) (domain_type : Option String) :
    Except PyErr (List AgentInfo) :=
  match domain_type with
  | some dt => if dt = "" then collectAgents s s.agentsDomains
               else collectAgents s (s.agentsDomainsByType dt)
  | none => collectAgents s s.agentsDomains

/-- AgentRegistry.find_available_domain: filter the domain orchestrators of
the type to those with status "active" and a live lease, return the first. -/
def find_available_domain (s : Store) (domain_type : String) :
    Except PyErr (Option AgentInfo) := do
  let domains ← get_domain_orchestrators s (some domain_type)
  let available := domains.filter (fun d => d.status = "active" && is_healthy s d.agent_id)
  .ok available.head?

/-! ## Domain spawner (spawner.py)

The Docker runtime is embedded as the list of existing containers plus, for
the start-wait loop, a poll trace: the observation the runtime returns at
the k-th inspect (polls happen every 0.5s, so a timeout of `t` seconds
admits `2*t` polls before the deadline).  DockerException raises are the
error constructors. -/

/-- A container as the runtime reports it: id, name, labels, status, and
its log lines. -/
structure ContainerRec where
  cid : String
  name : String
  labels : List (String × String)
  status : String
  logs : List String
deriving DecidableEq, Repr

/-- Provisioning failures raised by spawner.py as DockerException. -/
inductive SpawnErr where
  /-- Container exited unexpectedly; carries the attached log tail. -/
  | exitedLogs (logs : List String)
  /-- Container did not start within the timeout. -/
  | startTimeout (timeout : Nat)
  /-- Container not found while waiting. -/
  | containerGone (cid : String)
deriving DecidableEq, Repr

/-- container.logs(tail=50): the last `n` log lines. -/
def tailLines (n : Nat) (l : List String) : List String :=
  l.drop (l.length - n)

/-- DomainSpawner._find_container_by_domain_id: list containers filtered by
the domain-id label, first match or None. -/
def findContainerByDomainId (rt : List ContainerRec) (domain_id : String) :
    Option ContainerRec :=
  (rt.filter
    (fun c => c.labels.contains ("distributed-agent-network.domain-id", domain_id))).head?

/-- DomainSpawner.stop_domain: locate the container by label; False when no
match, otherwise stop and remove it.  (The NotFound/APIError branches after
a successful lookup model concurrent races with other Docker clients and
are unreachable in this sequential embedding.) -/
def stop_domain (rt : List ContainerRec) (domain_id : String) :
    List ContainerRec × Bool :=
  match findContainerByDomainId rt domain_id with
  | none => (rt, false)
  | some c => (rt.filter (fun x => x.cid ≠ c.cid), true)

/-- DomainSpawner._wait_for_container's poll loop: at each poll the runtime
reports none (container gone: NotFound) or a status with logs; "running"
returns, "exited"/"dead" raises with the last 50 log lines, anything else
sleeps 0.5s and repeats; when the fuel (polls remaining before the
deadline) runs out the timeout failure is raised. -/
def wait_loop (cid : String) (obs : Nat → Option (String × List String))
    (timeout : Nat) : Nat → Nat → Except SpawnErr Unit
  | _, 0 => .error (.startTimeout timeout)
  | k, fuel + 1 =>
      match obs k with
      | none => .error (.containerGone cid)
      | some (st, logs) =>
          if st = "running" then .ok ()
          else if st = "exited" ∨ st = "dead" then
            .error (.exitedLogs (tailLines 50 logs))
          else wait_loop cid obs timeout (k + 1) fuel

/-- DomainSpawner._wait_for_container: poll every 0.5s while time is before
deadline, i.e. 2*timeout polls. -/
def wait_for_container (cid : String) (obs : Nat → Option (String × List String))
    (timeout : Nat) : Except SpawnErr Unit :=
  wait_loop cid obs timeout 0 (2 * timeout)

/-- One hex digit as uuid4().hex prints it (lowercase). -/
def hexChar (n : Nat) : Char :=
  if n < 10 then Char.ofNat (48 + n) else Char.ofNat (87 + n)

/-- uuid4().hex: the 32 zero-padded lowercase hex nibbles of the 128-bit
value, most significant first. -/
def uuidHex (n : Nat) : List Char :=
  (List.range 32).map (fun i => hexChar (n / 16 ^ (31 - i) % 16))

/-- uuid4().hex[:8]. -/
def uuidHexTake8 (n : Nat) : String :=
  String.mk ((uuidHex n).take 8)

/-- DomainSpawner.spawn_domain: build the fresh domain id from the domain
type and 8 uuid hex chars, request container creation (environment, labels,
volumes and limits are passed to the runtime and do not affect the returned
id), then when wait_for_start poll the runtime until running or failure;
`uuidBits` is the 128-bit value uuid4 drew and `cid` the runtime-assigned
container id. -/
def spawn_domain (domain_type : String) (uuidBits : Nat) (cid : String)
    (obs : Nat → Option (String × List String)) (wait_for_start : Bool)
    (timeout : Nat) : Except SpawnErr String :=
  let domain_id := domain_type ++ "-" ++ uuidHexTake8 uuidBits
  if wait_for_start then
    match wait_for_container cid obs timeout with
    | .ok _ => .ok domain_id
    | .error e => .error e
  else .ok domain_id

/-- Lowercase hex digit test. -/
def isHexDigitChar (c : Char) : Bool :=
  "0123456789abcdef".toList.contains c

/-- The domain-id shape the spec states: domain_type, a dash, 8 lowercase
hex characters. -/
def matchesDomainIdShape (domain_type id : String) : Prop :=
  ∃ suf : List Char, id = domain_type ++ "-" ++ String.mk suf ∧
    suf.length = 8 ∧ ∀ c ∈ suf, isHexDigitChar c = true

/-! ## Scenario glue used by the theorems -/

/-- A sequence of publish_task calls on one domain, in order. -/
def publishAll (s : Store) (domain : String) (calls : List PublishCall) : Store :=
  calls.foldl (fun acc c => (publish_task acc domain c).1) s

/-- n successive get_next_task calls on one domain, collecting the
successfully dequeued tasks in order (stopping at the first none). -/
def drainN (domain now : String) : Nat → Store → Store × List TaskMessage
  | 0, s => (s, [])
  | n + 1, s =>
      match (get_next_task s domain now).2 with
      | some t =>
          ((drainN domain now n (get_next_task s domain now).1).1,
           t :: (drainN domain now n (get_next_task s domain now).1).2)
      | none => ((get_next_task s domain now).1, [])

/-- Number of occurrences of a task across the pending queue and active
list of one domain. -/
def pendingActiveCount (s : Store) (d : String) (t : TaskMessage) : Nat :=
  (s.pending d).count t + (s.active d).count t

/-- Every agent-info hash in the store is either absent or parseable (true
of every state the registry operations alone can reach, since `register`
writes full records and only `heartbeat` on a missing agent can create a
partial one). -/
def ParseOK (s : Store) : Prop :=
  ∀ b, s.agentInfo b = .empty ∨ ∃ i, (s.agentInfo b).parse = .ok i

/-- A poll observation on which the wait loop keeps polling: a reported
status that is neither running nor exited nor dead. -/
def nonterminalObs (o : Option (String × List String)) : Prop :=
  ∃ st logs, o = some (st, logs) ∧ st ≠ "running" ∧ st ≠ "exited" ∧ st ≠ "dead"

/-- The store after registering worker "a" on the empty store and then
deregistering it (the success branch's resulting state). -/
def postDeregStore : Store :=
  ((deregister (register Store.empty "a" "worker" none none "t0").1 "a").toOption.getD
    (Store.empty, false)).1

/-- The store after agent "A" registers as main and then agent "B"
registers as main (agents:main now holds "B"). -/
def mainStoreAB : Store :=
  (register (register Store.empty "A" "main" none none "t0").1 "B" "main" none none "t1").1

/-! ## Lemmas about the queue operations -/

theorem upd_self {α : Type} (f : String → α) (k : String) (v : α) : upd f k v k = v := by
  simp [upd]

theorem upd_other {α : Type} (f : String → α) (k : String) (v : α) (x : String)
    (h : x ≠ k) : upd f k v x = f x := by
  simp [upd, h]

theorem publish_task_pending (s : Store) (d : String) (c : PublishCall) :
    ((publish_task s d c).1).pending = upd s.pending d (mkTaskMessage d c :: s.pending d) := rfl

theorem publish_task_active (s : Store) (d : String) (c : PublishCall) :
    ((publish_task s d c).1).active = s.active := rfl

theorem get_next_task_empty (s : Store) (d now : String) (h : s.pending d = []) :
    get_next_task s d now = (s, none) := by
  unfold get_next_task
  rw [h]
  rfl

theorem get_next_task_concat (s : Store) (d now : String) (l : List TaskMessage)
    (t : TaskMessage) (h : s.pending d = l ++ [t]) :
    (get_next_task s d now).2 = some t ∧
    ((get_next_task s d now).1).pending = upd s.pending d l ∧
    ((get_next_task s d now).1).active = upd s.active d (t :: s.active d) := by
  have hp : (s.pending d).getLast? = some t := by rw [h]; exact List.getLast?_concat l
  have hd : (s.pending d).dropLast = l := by rw [h]; exact List.dropLast_concat
  unfold get_next_task
  rw [hp, hd]
  exact ⟨rfl, rfl, rfl⟩

theorem publishAll_pending (d : String) (calls : List PublishCall) :
    ∀ s : Store, (publishAll s d calls).pending d =
      (calls.map (mkTaskMessage d)).reverse ++ s.pending d := by
  induction calls with
  | nil => intro s; simp [publishAll]
  | cons c cs ih =>
      intro s
      have hstep : publishAll s d (c :: cs) = publishAll ((publish_task s d c).1) d cs := rfl
      rw [hstep, ih, publish_task_pending, upd_self]
      simp

theorem drainN_of_reverse (d now : String) (msgs : List TaskMessage) :
    ∀ s : Store, s.pending d = msgs.reverse →
      (drainN d now msgs.length s).2 = msgs := by
  induction msgs with
  | nil => intro s _; simp [drainN]
  | cons m ms ih =>
      intro s h
      have h' : s.pending d = ms.reverse ++ [m] := by simpa [List.reverse_cons] using h
      obtain ⟨h2, hp, _⟩ := get_next_task_concat s d now ms.reverse m h'
      have hlen : (m :: ms).length = ms.length + 1 := rfl
      rw [hlen]
      unfold drainN
      rw [h2]
      have hnext : ((get_next_task s d now).1).pending d = ms.reverse := by
        rw [hp, upd_self]
      simpa using ih ((get_next_task s d now).1) hnext

/-- C1: tasks published in order to one domain are returned by successive
successful get_next_task calls on that domain in the same order (FIFO), on
any store whose pending queue of that domain starts empty. -/
theorem fifo_per_domain (s : Store) (d now : String) (calls : List PublishCall)
    (h : s.pending d = []) :
    (drainN d now calls.length (publishAll s d calls)).2 =
      calls.map (mkTaskMessage d) := by
  have hlen : calls.length = (calls.map (mkTaskMessage d)).length := by
    rw [List.length_map]
  rw [hlen]
  apply drainN_of_reverse
  rw [publishAll_pending, h, List.append_nil]

/-- Witness: C1 at two concrete publish calls on the empty store. -/
theorem fifo_per_domain_witness :
    Store.empty.pending "D" = ([] : List TaskMessage) ∧
    (drainN "D" "n"
        ([⟨"d1", [], [], "normal", 300, "", "t1", "s1"⟩,
          ⟨"d2", [], [], "normal", 300, "", "t2", "s2"⟩] : List PublishCall).length
        (publishAll Store.empty "D"
          [⟨"d1", [], [], "normal", 300, "", "t1", "s1"⟩,
           ⟨"d2", [], [], "normal", 300, "", "t2", "s2"⟩])).2 =
      ([⟨"d1", [], [], "normal", 300, "", "t1", "s1"⟩,
        ⟨"d2", [], [], "normal", 300, "", "t2", "s2"⟩] : List PublishCall).map
        (mkTaskMessage "D") :=
  ⟨rfl, fifo_per_domain Store.empty "D" "n" _ rfl⟩

theorem get_next_task_count (s : Store) (d now : String) (t : TaskMessage) :
    pendingActiveCount ((get_next_task s d now).1) d t = pendingActiveCount s d t := by
  cases hl : (s.pending d).getLast? with
  | none =>
      have hnil : s.pending d = [] := by
        cases hsp : s.pending d with
        | nil => rfl
        | cons a as =>
            rw [hsp] at hl
            simp [List.getLast?_eq_none_iff] at hl
      rw [get_next_task_empty s d now hnil]
  | some tsk =>
      have hsplit : (s.pending d).dropLast ++ [tsk] = s.pending d :=
        List.dropLast_append_getLast? tsk hl
      obtain ⟨_, hp, ha⟩ := get_next_task_concat s d now (s.pending d).dropLast tsk hsplit.symm
      unfold pendingActiveCount
      rw [hp, ha, upd_self, upd_self]
      conv_rhs => rw [← hsplit]
      by_cases htk : t = tsk
      · subst htk; simp [List.count_append, List.count_cons]; omega
      · simp [List.count_append, List.count_cons, htk]

theorem publish_task_count (s : Store) (d : String) (c : PublishCall) (t : TaskMessage)
    (h1 : mkTaskMessage d c ∉ s.pending d) (h2 : mkTaskMessage d c ∉ s.active d)
    (hinv : pendingActiveCount s d t ≤ 1) :
    pendingActiveCount ((publish_task s d c).1) d t ≤ 1 := by
  unfold pendingActiveCount at *
  rw [publish_task_pending, publish_task_active, upd_self]
  by_cases htk : t = mkTaskMessage d c
  · subst htk
    have hc1 : (s.pending d).count (mkTaskMessage d c) = 0 := List.count_eq_zero.mpr h1
    have hc2 : (s.active d).count (mkTaskMessage d c) = 0 := List.count_eq_zero.mpr h2
    simp [List.count_cons, hc1, hc2]
  · simp [List.count_cons, htk, Ne.symm htk]
    omega

/-- C2: a published task lives in at most one of the pending queue and the
active list.  get_next_task moves the dequeued task from pending to active
as one step that conserves, for every task value, the total occurrence
count across the two (never duplicated, never lost), so it preserves the
at-most-one invariant; complete_task leaves every pending queue untouched
and only removes from the active list; publish_task preserves the invariant
whenever the message it constructs is fresh (its task_id is new, so the
message is in neither place). -/
theorem task_in_one_place (s : Store) (d now : String) (c : PublishCall)
    (task t : TaskMessage) :
    (mkTaskMessage d c ∉ s.pending d → mkTaskMessage d c ∉ s.active d →
        pendingActiveCount s d t ≤ 1 →
        pendingActiveCount ((publish_task s d c).1) d t ≤ 1) ∧
    pendingActiveCount ((get_next_task s d now).1) d t = pendingActiveCount s d t ∧
    (pendingActiveCount s d t ≤ 1 →
        pendingActiveCount ((get_next_task s d now).1) d t ≤ 1) ∧
    (complete_task s d task).pending = s.pending ∧
    ((complete_task s d task).active d).count t ≤ (s.active d).count t ∧
    (pendingActiveCount s d t ≤ 1 → pendingActiveCount (complete_task s d task) d t ≤ 1) := by
  have hcompl : ((complete_task s d task).active d).count t ≤ (s.active d).count t := by
    show ((upd s.active d ((s.active d).erase task)) d).count t ≤ _
    rw [upd_self, List.count_erase]
    omega
  refine ⟨publish_task_count s d c t, get_next_task_count s d now t, ?_, rfl, hcompl, ?_⟩
  · intro hinv; rw [get_next_task_count]; exact hinv
  · intro hinv
    unfold pendingActiveCount at *
    have hpend : (complete_task s d task).pending = s.pending := rfl
    rw [hpend]
    omega

/-- Witness: C2 at a concrete publish, dequeue and complete on the empty
store. -/
theorem task_in_one_place_witness :
    pendingActiveCount
        ((publish_task Store.empty "D" ⟨"d", [], [], "normal", 300, "", "t", "ts"⟩).1)
        "D" (mkTaskMessage "D" ⟨"d", [], [], "normal", 300, "", "t", "ts"⟩) ≤ 1 ∧
    pendingActiveCount
        ((get_next_task (publish_task Store.empty "D" ⟨"d", [], [], "normal", 300, "", "t", "ts"⟩).1 "D" "n").1)
        "D" (mkTaskMessage "D" ⟨"d", [], [], "normal", 300, "", "t", "ts"⟩) =
      pendingActiveCount (publish_task Store.empty "D" ⟨"d", [], [], "normal", 300, "", "t", "ts"⟩).1
        "D" (mkTaskMessage "D" ⟨"d", [], [], "normal", 300, "", "t", "ts"⟩) ∧
    pendingActiveCount
        (complete_task (publish_task Store.empty "D" ⟨"d", [], [], "normal", 300, "", "t", "ts"⟩).1
          "D" (mkTaskMessage "D" ⟨"d", [], [], "normal", 300, "", "t", "ts"⟩))
        "D" (mkTaskMessage "D" ⟨"d", [], [], "normal", 300, "", "t", "ts"⟩) ≤ 1 :=
  ⟨(task_in_one_place Store.empty "D" "n" ⟨"d", [], [], "normal", 300, "", "t", "ts"⟩
      (mkTaskMessage "D" ⟨"d", [], [], "normal", 300, "", "t", "ts"⟩)
      (mkTaskMessage "D" ⟨"d", [], [], "normal", 300, "", "t", "ts"⟩)).1
      (by decide) (by decide) (by decide),
   (task_in_one_place (publish_task Store.empty "D" ⟨"d", [], [], "normal", 300, "", "t", "ts"⟩).1
      "D" "n" ⟨"d", [], [], "normal", 300, "", "t", "ts"⟩
      (mkTaskMessage "D" ⟨"d", [], [], "normal", 300, "", "t", "ts"⟩)
      (mkTaskMessage "D" ⟨"d", [], [], "normal", 300, "", "t", "ts"⟩)).2.1,
   (task_in_one_place (publish_task Store.empty "D" ⟨"d", [], [], "normal", 300, "", "t", "ts"⟩).1
      "D" "n" ⟨"d", [], [], "normal", 300, "", "t", "ts"⟩
      (mkTaskMessage "D" ⟨"d", [], [], "normal", 300, "", "t", "ts"⟩)
      (mkTaskMessage "D" ⟨"d", [], [], "normal", 300, "", "t", "ts"⟩)).2.2.2.2.2 (by decide)⟩

/-- C5 amended: the pending list's head is the NEWEST task — publish_task
pushes to the head of tasks:pending:domain (LPUSH) and get_next_task pops
from its tail into the head of the active list (RPOPLPUSH); per-domain FIFO
is preserved, with the oldest task at the tail. -/
theorem pending_head_push_tail_pop (s : Store) (d now : String) (c : PublishCall)
    (l : List TaskMessage) (t : TaskMessage) (h : s.pending d = l ++ [t]) :
    ((publish_task s d c).1).pending d = mkTaskMessage d c :: s.pending d ∧
    (get_next_task s d now).2 = some t ∧
    ((get_next_task s d now).1).pending d = l ∧
    ((get_next_task s d now).1).active d = t :: s.active d := by
  obtain ⟨h2, hp, ha⟩ := get_next_task_concat s d now l t h
  refine ⟨?_, h2, ?_, ?_⟩
  · rw [publish_task_pending, upd_self]
  · rw [hp, upd_self]
  · rw [ha, upd_self]

/-- Witness: C5 amended at one concrete published task. -/
theorem pending_head_push_tail_pop_witness :
    ((publish_task (publish_task Store.empty "D" ⟨"dA", [], [], "normal", 300, "", "tA", "sA"⟩).1
        "D" ⟨"dB", [], [], "normal", 300, "", "tB", "sB"⟩).1).pending "D" =
      mkTaskMessage "D" ⟨"dB", [], [], "normal", 300, "", "tB", "sB"⟩ ::
        (publish_task Store.empty "D" ⟨"dA", [], [], "normal", 300, "", "tA", "sA"⟩).1.pending "D" ∧
    (get_next_task (publish_task Store.empty "D" ⟨"dA", [], [], "normal", 300, "", "tA", "sA"⟩).1 "D" "n").2 =
      some (mkTaskMessage "D" ⟨"dA", [], [], "normal", 300, "", "tA", "sA"⟩) ∧
    ((get_next_task (publish_task Store.empty "D" ⟨"dA", [], [], "normal", 300, "", "tA", "sA"⟩).1 "D" "n").1).pending "D" = [] ∧
    ((get_next_task (publish_task Store.empty "D" ⟨"dA", [], [], "normal", 300, "", "tA", "sA"⟩).1 "D" "n").1).active "D" =
      mkTaskMessage "D" ⟨"dA", [], [], "normal", 300, "", "tA", "sA"⟩ ::
        (publish_task Store.empty "D" ⟨"dA", [], [], "normal", 300, "", "tA", "sA"⟩).1.active "D" :=
  pending_head_push_tail_pop
    (publish_task Store.empty "D" ⟨"dA", [], [], "normal", 300, "", "tA", "sA"⟩).1
    "D" "n" ⟨"dB", [], [], "normal", 300, "", "tB", "sB"⟩ []
    (mkTaskMessage "D" ⟨"dA", [], [], "normal", 300, "", "tA", "sA"⟩) rfl

/-- C5 counterexample: after publishing task a then task b to one domain,
the head of tasks:pending:domain is the newest task b, not the oldest a —
the claim's tail-push/head-pop orientation is inverted in the code
(LPUSH/RPOPLPUSH). -/
theorem pending_head_is_newest_cx :
    ((publish_task (publish_task Store.empty "D" ⟨"dA", [], [], "normal", 300, "", "tA", "sA"⟩).1
        "D" ⟨"dB", [], [], "normal", 300, "", "tB", "sB"⟩).1.pending "D").head? =
      some (mkTaskMessage "D" ⟨"dB", [], [], "normal", 300, "", "tB", "sB"⟩) ∧
    mkTaskMessage "D" ⟨"dB", [], [], "normal", 300, "", "tB", "sB"⟩ ≠
      mkTaskMessage "D" ⟨"dA", [], [], "normal", 300, "", "tA", "sA"⟩ := by
  decide

/-! ## Result-store lemmas -/

/-- C3 amended: publish_result then get_result returns the status and
output exactly as given with completed_at stamped; the error comes back
exactly as given only when it is truthy (non-None, non-empty) — when None
or empty, publish_result leaves the stored error field unchanged, so a
previous terminal error persists.  Holds for any task whose result hash
carries its task_id (every published task), including overwriting an
already-terminal result. -/
theorem publish_result_then_get (s : Store) (tid : String)
    (output : List (String × String)) (status : String) (error : Option String)
    (now : String) (h : (s.results tid).task_id? = some tid) :
    get_result (publish_result s tid output status error now) tid =
      .ok (some ⟨tid, status, some output,
        if errTruthy error then error else (s.results tid).error?,
        (s.results tid).started_at?, some now⟩) := by
  have h0 : (publish_result s tid output status error now).results tid =
      (s.results tid).hset
        ⟨none, some status, some output,
         if errTruthy error then error else none, none, some now⟩ := by
    unfold publish_result
    exact upd_self ..
  have hhash : (publish_result s tid output status error now).results tid =
      ⟨some tid, some status, some output,
       if errTruthy error then error else (s.results tid).error?,
       (s.results tid).started_at?, some now⟩ := by
    rw [h0]
    unfold ResultHash.hset
    cases error with
    | none => simp [errTruthy, h]
    | some e =>
        by_cases he : e = ""
        · simp [errTruthy, he, h]
        · simp [errTruthy, he, h]
  unfold get_result
  rw [hhash]
  have hne : (⟨some tid, some status, some output,
      if errTruthy error then error else (s.results tid).error?,
      (s.results tid).started_at?, some now⟩ : ResultHash) ≠ .empty := by
    intro hc
    have hfield := congrArg ResultHash.task_id? hc
    simp [ResultHash.empty] at hfield
  rw [if_neg hne]
  simp [ResultHash.parse]
  rfl

/-- Witness: C3 amended at a concrete publish and completed result. -/
theorem publish_result_then_get_witness :
    ((publish_task Store.empty "D" ⟨"d", [], [], "normal", 300, "", "t", "ts"⟩).1.results "t").task_id? = some "t" ∧
    get_result
        (publish_result (publish_task Store.empty "D" ⟨"d", [], [], "normal", 300, "", "t", "ts"⟩).1
          "t" [("k", "v")] "completed" none "n1") "t" =
      .ok (some ⟨"t", "completed", some [("k", "v")],
        if errTruthy none then none
        else ((publish_task Store.empty "D" ⟨"d", [], [], "normal", 300, "", "t", "ts"⟩).1.results "t").error?,
        ((publish_task Store.empty "D" ⟨"d", [], [], "normal", 300, "", "t", "ts"⟩).1.results "t").started_at?,
        some "n1"⟩) :=
  ⟨by decide,
   publish_result_then_get (publish_task Store.empty "D" ⟨"d", [], [], "normal", 300, "", "t", "ts"⟩).1
     "t" [("k", "v")] "completed" none "n1" (by decide)⟩

/-- C3 counterexample: publish a task, fail it with error "boom", then
overwrite with a completed result passing error=None — get_result returns
error "boom" instead of the given None: the stale terminal error persists,
so the new call does not overwrite all previous terminal values. -/
theorem publish_result_stale_error_cx :
    get_result
        (publish_result
          (publish_result
            (publish_task Store.empty "D" ⟨"d", [], [], "normal", 300, "", "t", "ts"⟩).1
            "t" [("k", "v1")] "failed" (some "boom") "n1")
          "t" [("k", "v2")] "completed" none "n2") "t" =
      .ok (some ⟨"t", "completed", some [("k", "v2")], some "boom", none, some "n2"⟩) := by
  decide

/-! ## Registry lemmas -/

/-- C4 amended: heartbeat refreshes the lease TTL and writes last_heartbeat
unconditionally — on a deregistered (or never-registered) agent it
recreates the lease key and a partial info hash holding only
last_heartbeat, so afterwards the agent is lease-healthy again (is_healthy
true) and get_agent raises a validation error on the partial record rather
than returning it; the agent is not re-added to agents:all, the role sets
or agents:main. -/
theorem heartbeat_recreates_lease (s : Store) (a now : String)
    (h : s.agentInfo a = .empty) :
    is_healthy (heartbeat s a now).1 a = true ∧
    (heartbeat s a now).1.heartbeatKey a = some now ∧
    (heartbeat s a now).1.agentInfo a = ⟨none, none, none, none, none, none, some now⟩ ∧
    get_agent (heartbeat s a now).1 a = .error .validationError ∧
    (heartbeat s a now).1.agentsAll = s.agentsAll ∧
    (heartbeat s a now).1.agentsDomains = s.agentsDomains ∧
    (heartbeat s a now).1.agentsWorkers = s.agentsWorkers ∧
    (heartbeat s a now).1.agentsMain = s.agentsMain := by
  have hk : (heartbeat s a now).1.heartbeatKey a = some now := by
    show (upd s.heartbeatKey a (some now)) a = some now
    exact upd_self ..
  have hinfo : (heartbeat s a now).1.agentInfo a =
      ⟨none, none, none, none, none, none, some now⟩ := by
    show (upd s.agentInfo a ((s.agentInfo a).hset ⟨none, none, none, none, none, none, some now⟩)) a = _
    rw [upd_self, h]
    rfl
  refine ⟨?_, hk, hinfo, ?_, rfl, rfl, rfl, rfl⟩
  · show ((heartbeat s a now).1.heartbeatKey a).isSome = true
    rw [hk]
    rfl
  · unfold get_agent
    rw [hinfo]
    have hne : (⟨none, none, none, none, none, none, some now⟩ : AgentInfoHash) ≠ .empty := by
      intro hc
      have hfield := congrArg AgentInfoHash.last_heartbeat? hc
      simp [AgentInfoHash.empty] at hfield
    rw [if_neg hne]
    simp [AgentInfoHash.parse]
    rfl

/-- Witness: C4 amended on an agent with no info record. -/
theorem heartbeat_recreates_lease_witness :
    is_healthy (heartbeat Store.empty "a" "t1").1 "a" = true ∧
    get_agent (heartbeat Store.empty "a" "t1").1 "a" = .error .validationError :=
  ⟨(heartbeat_recreates_lease Store.empty "a" "t1" rfl).1,
   (heartbeat_recreates_lease Store.empty "a" "t1" rfl).2.2.2.1⟩

/-- C4 counterexample: register an agent, deregister it (which succeeds),
then heartbeat it — the agent is lease-healthy again (is_healthy true),
contradicting the claim that a deregistered agent stays not healthy after
heartbeat. -/
theorem heartbeat_resurrects_cx :
    (deregister (register Store.empty "a" "worker" none none "t0").1 "a").map
      (fun p => (p.2, is_healthy (heartbeat p.1 "a" "t1").1 "a")) = .ok (true, true) := by
  decide

theorem mem_sadd_self (s : List String) (x : String) : x ∈ sadd s x := by
  unfold sadd
  split_ifs with h
  · exact h
  · simp

theorem mem_sadd_of_mem (s : List String) (x y : String) (h : y ∈ s) : y ∈ sadd s x := by
  unfold sadd
  split_ifs
  · exact h
  · exact List.mem_append_left _ h

theorem register_info (s : Store) (a role : String) (dt cid : Option String) (now : String) :
    (register s a role dt cid now).1.agentInfo a =
      (s.agentInfo a).hset ⟨some a, some role, dt, some "active", cid, some now, none⟩ := by
  by_cases h1 : role = "main"
  · simp [register, h1, upd_self]
  · by_cases h2 : role = "domain"
    · cases dt with
      | none => simp [register, h1, h2, upd_self]
      | some dval => by_cases h3 : dval = "" <;> simp [register, h1, h2, h3, upd_self]
    · by_cases h4 : role = "worker" <;> simp [register, h1, h2, h4, upd_self]

theorem register_sets (s : Store) (a role : String) (dt cid : Option String) (now : String) :
    (register s a role dt cid now).1.agentsAll = sadd s.agentsAll a ∧
    (register s a role dt cid now).1.agentsDomains =
      (if role = "domain" then sadd s.agentsDomains a else s.agentsDomains) ∧
    (register s a role dt cid now).1.agentsWorkers =
      (if role = "worker" then sadd s.agentsWorkers a else s.agentsWorkers) ∧
    (register s a role dt cid now).1.agentsMain =
      (if role = "main" then some a else s.agentsMain) := by
  by_cases h1 : role = "main"
  · simp [register, h1]
  · by_cases h2 : role = "domain"
    · cases dt with
      | none => simp [register, h1, h2]
      | some dval => by_cases h3 : dval = "" <;> simp [register, h1, h2, h3]
    · by_cases h4 : role = "worker" <;> simp [register, h1, h2, h4]

/-- C6 amended: re-registering an agent_id is an upsert that merges, not a
replacement — the new call's fields are written (agent_id, role,
status=active, created_at always; domain_type/container_id only when
provided), optional fields the new call omits keep their old values, the
old last_heartbeat survives, the id is added to the new role's sets, and
ids already in a membership set stay there (no cleanup of the previous
role's sets) — so the state after a second register equals a single fresh
register only when the role is unchanged and no previously-set optional
field is omitted. -/
theorem register_upsert_merge (s : Store) (a role : String) (dt cid : Option String)
    (now : String) :
    (register s a role dt cid now).1.agentInfo a =
      (s.agentInfo a).hset ⟨some a, some role, dt, some "active", cid, some now, none⟩ ∧
    ((register s a role dt cid now).1.agentInfo a).domain_type? =
      (match dt with | some d => some d | none => (s.agentInfo a).domain_type?) ∧
    ((register s a role dt cid now).1.agentInfo a).container_id? =
      (match cid with | some cn => some cn | none => (s.agentInfo a).container_id?) ∧
    ((register s a role dt cid now).1.agentInfo a).last_heartbeat? =
      (s.agentInfo a).last_heartbeat? ∧
    a ∈ (register s a role dt cid now).1.agentsAll ∧
    (∀ b ∈ s.agentsDomains, b ∈ (register s a role dt cid now).1.agentsDomains) ∧
    (∀ b ∈ s.agentsWorkers, b ∈ (register s a role dt cid now).1.agentsWorkers) ∧
    (role = "domain" → a ∈ (register s a role dt cid now).1.agentsDomains) ∧
    (role = "worker" → a ∈ (register s a role dt cid now).1.agentsWorkers) ∧
    (role = "main" → (register s a role dt cid now).1.agentsMain = some a) := by
  obtain ⟨hall, hdom, hwork, hmain⟩ := register_sets s a role dt cid now
  have hinfo := register_info s a role dt cid now
  refine ⟨hinfo, ?_, ?_, ?_, ?_, ?_, ?_, ?_, ?_, ?_⟩
  · rw [hinfo]; cases dt <;> simp [AgentInfoHash.hset]
  · rw [hinfo]; cases cid <;> simp [AgentInfoHash.hset]
  · rw [hinfo]; simp [AgentInfoHash.hset]
  · rw [hall]; exact mem_sadd_self ..
  · intro b hb
    rw [hdom]
    split_ifs
    · exact mem_sadd_of_mem _ _ _ hb
    · exact hb
  · intro b hb
    rw [hwork]
    split_ifs
    · exact mem_sadd_of_mem _ _ _ hb
    · exact hb
  · intro hrole; rw [hdom, if_pos hrole]; exact mem_sadd_self ..
  · intro hrole; rw [hwork, if_pos hrole]; exact mem_sadd_self ..
  · intro hrole; rw [hmain, if_pos hrole]

/-- Witness: C6 amended — after registering as a backend domain agent and
re-registering as a worker, the id is in the workers set and still in the
domains set. -/
theorem register_upsert_merge_witness :
    "a" ∈ (register (register Store.empty "a" "domain" (some "backend") none "t0").1
        "a" "worker" none none "t2").1.agentsWorkers ∧
    "a" ∈ (register (register Store.empty "a" "domain" (some "backend") none "t0").1
        "a" "worker" none none "t2").1.agentsDomains :=
  ⟨(register_upsert_merge (register Store.empty "a" "domain" (some "backend") none "t0").1
      "a" "worker" none none "t2").2.2.2.2.2.2.2.2.1 rfl,
   (register_upsert_merge (register Store.empty "a" "domain" (some "backend") none "t0").1
      "a" "worker" none none "t2").2.2.2.2.2.1 "a" (by decide)⟩

/-- C6 counterexample: register "a" as a backend domain agent, then
register "a" again as a worker with no domain_type — the resulting state
differs from a single fresh worker register: the domains membership set
differs, the info record differs, the stale domain_type "backend" persists,
and "a" is still a member of agents:domains. -/
theorem register_not_fresh_upsert_cx :
    (register (register Store.empty "a" "domain" (some "backend") none "t0").1
        "a" "worker" none none "t2").1.agentsDomains ≠
      (register Store.empty "a" "worker" none none "t2").1.agentsDomains ∧
    (register (register Store.empty "a" "domain" (some "backend") none "t0").1
        "a" "worker" none none "t2").1.agentInfo "a" ≠
      (register Store.empty "a" "worker" none none "t2").1.agentInfo "a" ∧
    ((register (register Store.empty "a" "domain" (some "backend") none "t0").1
        "a" "worker" none none "t2").1.agentInfo "a").domain_type? = some "backend" ∧
    "a" ∈ (register (register Store.empty "a" "domain" (some "backend") none "t0").1
        "a" "worker" none none "t2").1.agentsDomains := by
  decide

/-- C10: deregister of an agent whose stored role is "main" unconditionally
deletes the agents:main key — even when that key currently holds a
different agent's id — so get_main_orchestrator afterwards returns none,
while every other agent's info record (in particular a later-registered
main agent's) is untouched. -/
theorem deregister_main_clears_key (s : Store) (a : String) (i : AgentInfo)
    (h1 : get_agent s a = .ok (some i)) (h2 : i.role = "main") :
    ∃ s1, deregister s a = .ok (s1, true) ∧ s1.agentsMain = none ∧
      get_main_orchestrator s1 = .ok none ∧
      ∀ b, b ≠ a → s1.agentInfo b = s.agentInfo b := by
  obtain ⟨aid, role, dtf, stf, cidf, catf, lhbf⟩ := i
  dsimp only at h2
  subst h2
  unfold deregister
  rw [h1]
  exact ⟨_, rfl, rfl, rfl, fun b hb => upd_other _ _ _ _ hb⟩

/-- Witness: C10 — A registers as main, then B registers as main (so
agents:main holds "B"); deregistering A still wipes agents:main, so
get_main_orchestrator returns none although B's record is untouched. -/
theorem deregister_main_clears_key_witness :
    mainStoreAB.agentsMain = some "B" ∧
    mainStoreAB.agentInfo "B" ≠ .empty ∧
    (∃ s1, deregister mainStoreAB "A" = .ok (s1, true) ∧ s1.agentsMain = none ∧
      get_main_orchestrator s1 = .ok none ∧
      ∀ b, b ≠ "A" → s1.agentInfo b = mainStoreAB.agentInfo b) :=
  ⟨by decide, by decide,
   deregister_main_clears_key mainStoreAB "A"
     ⟨"A", "main", none, "active", none, "t0", none⟩ (by decide) rfl⟩

theorem deregister_true_info (s s1 : Store) (a : String)
    (h : deregister s a = .ok (s1, true)) : s1.agentInfo a = .empty := by
  unfold deregister at h
  cases hga : get_agent s a with
  | error e =>
      rw [hga] at h
      exact Except.noConfusion
        (show (Except.error e : Except PyErr (Store × Bool)) = .ok (s1, true) from h)
  | ok info? =>
      rw [hga] at h
      cases info? with
      | none =>
          have h' := Except.ok.inj h
          exact Bool.noConfusion (show false = true from congrArg Prod.snd h')
      | some i =>
          have h' := Except.ok.inj h
          obtain ⟨hS, -⟩ := Prod.mk.inj h'
          subst hS
          exact upd_self ..

/-- C7: not-found conditions are sentinels, not errors — deregister of an
unknown agent returns false and leaves the store unchanged, a second
deregister of a just-removed agent returns false, stop_domain with no
container carrying the domain-id label returns false and removes nothing,
and non-blocking get_next_task on an empty pending queue returns none with
the store unchanged.  (All four are total `.ok`/pair results: none raises.) -/
theorem not_found_sentinels (s : Store) (a d now domain_id : String)
    (rt : List ContainerRec) :
    (get_agent s a = .ok none → deregister s a = .ok (s, false)) ∧
    (∀ s1, deregister s a = .ok (s1, true) → deregister s1 a = .ok (s1, false)) ∧
    ((∀ c ∈ rt, ("distributed-agent-network.domain-id", domain_id) ∉ c.labels) →
      stop_domain rt domain_id = (rt, false)) ∧
    (s.pending d = [] → get_next_task s d now = (s, none)) := by
  refine ⟨?_, ?_, ?_, get_next_task_empty s d now⟩
  · intro h
    unfold deregister
    rw [h]
    rfl
  · intro s1 h
    have hinfo := deregister_true_info s s1 a h
    have hga : get_agent s1 a = .ok none := by
      unfold get_agent
      rw [hinfo]
      simp
    unfold deregister
    rw [hga]
    rfl
  · intro h
    have hfilter : rt.filter
        (fun c => c.labels.contains ("distributed-agent-network.domain-id", domain_id)) = [] := by
      rw [List.filter_eq_nil_iff]
      intro c hc
      simpa using h c hc
    unfold stop_domain findContainerByDomainId
    rw [hfilter]
    rfl

/-- Witness: C7 at concrete inputs — unknown agent on the empty store, a
just-deregistered agent, an empty container runtime, an empty queue. -/
theorem not_found_sentinels_witness :
    deregister Store.empty "x" = .ok (Store.empty, false) ∧
    deregister postDeregStore "a" = .ok (postDeregStore, false) ∧
    stop_domain [] "nope" = ([], false) ∧
    get_next_task Store.empty "D" "n" = (Store.empty, none) :=
  ⟨(not_found_sentinels Store.empty "x" "D" "n" "nope" []).1 rfl,
   (not_found_sentinels (register Store.empty "a" "worker" none none "t0").1
      "a" "D" "n" "nope" []).2.1 postDeregStore rfl,
   (not_found_sentinels Store.empty "a" "D" "n" "nope" []).2.2.1
      (fun c hc => absurd hc (List.not_mem_nil c)),
   (not_found_sentinels Store.empty "a" "D" "n" "nope" []).2.2.2 rfl⟩

theorem register_info_other (s : Store) (a role : String) (dt cid : Option String)
    (now : String) (b : String) (hb : b ≠ a) :
    (register s a role dt cid now).1.agentInfo b = s.agentInfo b := by
  by_cases h1 : role = "main"
  · simp [register, h1, upd, hb]
  · by_cases h2 : role = "domain"
    · cases dt with
      | none => simp [register, h1, h2, upd, hb]
      | some dval => by_cases h3 : dval = "" <;> simp [register, h1, h2, h3, upd, hb]
    · by_cases h4 : role = "worker" <;> simp [register, h1, h2, h4, upd, hb]

theorem heartbeatKey_register (s : Store) (a role : String) (dt cid : Option String)
    (now : String) : (register s a role dt cid now).1.heartbeatKey a = some now := by
  by_cases h1 : role = "main"
  · simp [register, h1, upd_self]
  · by_cases h2 : role = "domain"
    · cases dt with
      | none => simp [register, h1, h2, upd_self]
      | some dval => by_cases h3 : dval = "" <;> simp [register, h1, h2, h3, upd_self]
    · by_cases h4 : role = "worker" <;> simp [register, h1, h2, h4, upd_self]

theorem byType_register (s : Store) (a dt : String) (cid : Option String) (now : String)
    (hdt : dt ≠ "") :
    (register s a "domain" (some dt) cid now).1.agentsDomainsByType dt =
      sadd (s.agentsDomainsByType dt) a := by
  simp [register, hdt, upd_self]

theorem get_agent_register (s : Store) (a role : String) (dt cid : Option String)
    (now : String) :
    get_agent (register s a role dt cid now).1 a =
      .ok (some ⟨a, role, dt <|> (s.agentInfo a).domain_type?, "active",
                 cid <|> (s.agentInfo a).container_id?, now,
                 (s.agentInfo a).last_heartbeat?⟩) := by
  unfold get_agent
  rw [register_info]
  unfold AgentInfoHash.hset
  simp only [Option.some_orElse, Option.none_orElse]
  have hne : (⟨some a, some role, dt <|> (s.agentInfo a).domain_type?, some "active",
      cid <|> (s.agentInfo a).container_id?, some now,
      (s.agentInfo a).last_heartbeat?⟩ : AgentInfoHash) ≠ .empty := by
    intro hc
    have hfield := congrArg AgentInfoHash.agent_id? hc
    simp [AgentInfoHash.empty] at hfield
  rw [if_neg hne]
  simp [AgentInfoHash.parse]
  rfl

theorem register_ParseOK (s : Store) (a role : String) (dt cid : Option String)
    (now : String) (h : ParseOK s) : ParseOK (register s a role dt cid now).1 := by
  intro b
  by_cases hb : b = a
  · subst hb
    right
    rw [register_info]
    exact ⟨_, rfl⟩
  · rw [register_info_other s a role dt cid now b hb]
    exact h b

theorem collectAgents_ok (s : Store) (h : ParseOK s) (ids : List String) :
    ∃ L, collectAgents s ids = .ok L := by
  induction ids with
  | nil => exact ⟨[], rfl⟩
  | cons x rest ih =>
      obtain ⟨L, hL⟩ := ih
      rcases h x with he | ⟨i, hi⟩
      · have hg : get_agent s x = .ok none := by
          unfold get_agent
          rw [he]
          simp
        refine ⟨L, ?_⟩
        unfold collectAgents
        simp only [hg, hL]
        rfl
      · have hemp : s.agentInfo x ≠ .empty := by
          intro hc
          rw [hc] at hi
          exact Except.noConfusion
            (show (Except.error PyErr.validationError : Except PyErr AgentInfo) = .ok i from hi)
        have hg : get_agent s x = .ok (some i) := by
          unfold get_agent
          rw [if_neg hemp, hi]
          rfl
        refine ⟨i :: L, ?_⟩
        unfold collectAgents
        simp only [hg, hL]
        rfl

theorem collectAgents_mem (s : Store) (ids : List String) :
    ∀ L, collectAgents s ids = .ok L → ∀ b ∈ ids, ∀ i : AgentInfo,
      get_agent s b = .ok (some i) → i ∈ L := by
  induction ids with
  | nil => intro L _ b hb; cases hb
  | cons x rest ih =>
      intro L hc b hb i hi
      cases hgx : get_agent s x with
      | error e =>
          unfold collectAgents at hc
          rw [hgx] at hc
          exact Except.noConfusion
            (show (Except.error e : Except PyErr (List AgentInfo)) = .ok L from hc)
      | ok ix? =>
          unfold collectAgents at hc
          rw [hgx] at hc
          cases hcr : collectAgents s rest with
          | error e =>
              rw [hcr] at hc
              exact Except.noConfusion
                (show (Except.error e : Except PyErr (List AgentInfo)) = .ok L from hc)
          | ok M =>
              rw [hcr] at hc
              cases ix? with
              | none =>
                  have hML : M = L := Except.ok.inj hc
                  cases hb with
                  | head =>
                      rw [hgx] at hi
                      exact Option.noConfusion (Except.ok.inj hi)
                  | tail _ hbtl => exact hML ▸ ih M hcr b hbtl i hi
              | some j =>
                  have hJL : j :: M = L := Except.ok.inj hc
                  cases hb with
                  | head =>
                      rw [hgx] at hi
                      have hji : j = i := Option.some.inj (Except.ok.inj hi)
                      rw [← hJL, hji]
                      exact List.mem_cons_self ..
                  | tail _ hbtl =>
                      rw [← hJL]
                      exact List.mem_cons_of_mem _ (ih M hcr b hbtl i hi)

/-- C9: register always stamps status "active" (never the AgentInfo default
"starting"): immediately after register, get_agent returns a record with
status "active" for any role; and a freshly registered domain agent of a
type is immediately eligible for find_available_domain of that type — the
lookup returns some active agent (its lease was just set, so it is
healthy). -/
theorem register_active_eligible (s : Store) (a dt role : String)
    (dto cid : Option String) (now : String) (hPO : ParseOK s) (hdt : dt ≠ "") :
    (∃ i, get_agent (register s a role dto cid now).1 a = .ok (some i) ∧
        i.agent_id = a ∧ i.role = role ∧ i.status = "active") ∧
    (∃ j, find_available_domain (register s a "domain" (some dt) cid now).1 dt =
        .ok (some j) ∧ j.status = "active") := by
  constructor
  · exact ⟨_, get_agent_register s a role dto cid now, rfl, rfl, rfl⟩
  · have hPO' := register_ParseOK s a "domain" (some dt) cid now hPO
    have hbt := byType_register s a dt cid now hdt
    obtain ⟨iR, hga, hid, _hrole, hstat⟩ :
        ∃ i, get_agent (register s a "domain" (some dt) cid now).1 a = .ok (some i) ∧
          i.agent_id = a ∧ i.role = "domain" ∧ i.status = "active" :=
      ⟨_, get_agent_register s a "domain" (some dt) cid now, rfl, rfl, rfl⟩
    obtain ⟨L, hL⟩ := collectAgents_ok _ hPO'
      ((register s a "domain" (some dt) cid now).1.agentsDomainsByType dt)
    have hain : a ∈ (register s a "domain" (some dt) cid now).1.agentsDomainsByType dt := by
      rw [hbt]
      exact mem_sadd_self ..
    have hmem := collectAgents_mem _ _ L hL a hain iR hga
    have hhb := heartbeatKey_register s a "domain" (some dt) cid now
    have hp : (iR.status = "active" &&
        is_healthy (register s a "domain" (some dt) cid now).1 iR.agent_id) = true := by
      simp [hstat, is_healthy, hid, hhb]
    have hfmem : iR ∈ L.filter (fun d : AgentInfo => d.status = "active" &&
        is_healthy (register s a "domain" (some dt) cid now).1 d.agent_id) :=
      List.mem_filter.mpr ⟨hmem, hp⟩
    cases hfil : L.filter (fun d : AgentInfo => d.status = "active" &&
        is_healthy (register s a "domain" (some dt) cid now).1 d.agent_id) with
    | nil => rw [hfil] at hfmem; cases hfmem
    | cons j js =>
        have hjmem : j ∈ L.filter (fun d : AgentInfo => d.status = "active" &&
            is_healthy (register s a "domain" (some dt) cid now).1 d.agent_id) := by
          rw [hfil]
          exact List.mem_cons_self ..
        have hjact : j.status = "active" := by
          have hflt := (List.mem_filter.mp hjmem).2
          simp at hflt
          exact hflt.1
        refine ⟨j, ?_, hjact⟩
        have hfd : find_available_domain (register s a "domain" (some dt) cid now).1 dt =
            .ok ((L.filter (fun d : AgentInfo => d.status = "active" &&
              is_healthy (register s a "domain" (some dt) cid now).1 d.agent_id)).head?) := by
          unfold find_available_domain get_domain_orchestrators
          dsimp only
          rw [if_neg hdt, hL]
          rfl
        rw [hfd, hfil]
        rfl

/-- Witness: C9 on the empty store for a worker register and a backend
domain register. -/
theorem register_active_eligible_witness :
    (∃ i, get_agent (register Store.empty "a" "worker" none none "t0").1 "a" =
        .ok (some i) ∧ i.agent_id = "a" ∧ i.role = "worker" ∧ i.status = "active") ∧
    (∃ j, find_available_domain (register Store.empty "a" "domain" (some "backend") none "t0").1
        "backend" = .ok (some j) ∧ j.status = "active") :=
  register_active_eligible Store.empty "a" "backend" "worker" none none "t0"
    (fun _ => Or.inl rfl) (by decide)

/-! ## Spawner lemmas -/

theorem hexChar_isHex (m : Nat) (h : m < 16) : isHexDigitChar (hexChar m) = true := by
  interval_cases m <;> decide

theorem uuidHexTake8_shape (n : Nat) :
    ((uuidHex n).take 8).length = 8 ∧ ∀ c ∈ (uuidHex n).take 8, isHexDigitChar c = true := by
  constructor
  · have hlen : (uuidHex n).length = 32 := by simp [uuidHex]
    rw [List.length_take, hlen]
    decide
  · intro c hc
    have hc' : c ∈ uuidHex n := List.mem_of_mem_take hc
    obtain ⟨i, _, rfl⟩ := List.mem_map.mp hc'
    exact hexChar_isHex _ (Nat.mod_lt _ (by omega))

theorem matches_shape (domain_type : String) (n : Nat) :
    matchesDomainIdShape domain_type (domain_type ++ "-" ++ uuidHexTake8 n) :=
  ⟨(uuidHex n).take 8, rfl, (uuidHexTake8_shape n).1, (uuidHexTake8_shape n).2⟩

theorem spawn_domain_wait_eq (dt : String) (n : Nat) (cid : String)
    (obs : Nat → Option (String × List String)) (timeout : Nat) :
    spawn_domain dt n cid obs true timeout =
      (match wait_for_container cid obs timeout with
       | .ok _ => .ok (dt ++ "-" ++ uuidHexTake8 n)
       | .error e => .error e) := rfl

theorem wait_loop_ok (cid : String) (obs : Nat → Option (String × List String))
    (timeout : Nat) (logs : List String) :
    ∀ m k fuel, m < fuel → (∀ j, j < m → nonterminalObs (obs (k + j))) →
      obs (k + m) = some ("running", logs) →
      wait_loop cid obs timeout k fuel = .ok () := by
  intro m
  induction m with
  | zero =>
      intro k fuel hm hpre hobs
      cases fuel with
      | zero => omega
      | succ f =>
          unfold wait_loop
          rw [show k + 0 = k from rfl] at hobs
          rw [hobs]
          simp
  | succ m ih =>
      intro k fuel hm hpre hobs
      cases fuel with
      | zero => omega
      | succ f =>
          obtain ⟨st, lg, hobs0, hr, he, hd⟩ := hpre 0 (by omega)
          unfold wait_loop
          rw [show k + 0 = k from rfl] at hobs0
          rw [hobs0]
          dsimp only
          rw [if_neg hr, if_neg (not_or.mpr ⟨he, hd⟩)]
          apply ih (k + 1) f (by omega)
          · intro j hj
            have hj1 := hpre (j + 1) (by omega)
            rw [show k + (j + 1) = k + 1 + j from by omega] at hj1
            exact hj1
          · rw [show k + 1 + m = k + (m + 1) from by omega]
            exact hobs

theorem wait_loop_exit (cid : String) (obs : Nat → Option (String × List String))
    (timeout : Nat) (st : String) (logs : List String) :
    ∀ m k fuel, m < fuel → (∀ j, j < m → nonterminalObs (obs (k + j))) →
      obs (k + m) = some (st, logs) → (st = "exited" ∨ st = "dead") →
      wait_loop cid obs timeout k fuel = .error (.exitedLogs (tailLines 50 logs)) := by
  intro m
  induction m with
  | zero =>
      intro k fuel hm hpre hobs hterm
      cases fuel with
      | zero => omega
      | succ f =>
          have hnr : st ≠ "running" := by
            rcases hterm with h | h <;> subst h <;> decide
          unfold wait_loop
          rw [show k + 0 = k from rfl] at hobs
          rw [hobs]
          dsimp only
          rw [if_neg hnr, if_pos hterm]
  | succ m ih =>
      intro k fuel hm hpre hobs hterm
      cases fuel with
      | zero => omega
      | succ f =>
          obtain ⟨st0, lg0, hobs0, hr, he, hd⟩ := hpre 0 (by omega)
          unfold wait_loop
          rw [show k + 0 = k from rfl] at hobs0
          rw [hobs0]
          dsimp only
          rw [if_neg hr, if_neg (not_or.mpr ⟨he, hd⟩)]
          apply ih (k + 1) f (by omega)
          · intro j hj
            have hj1 := hpre (j + 1) (by omega)
            rw [show k + (j + 1) = k + 1 + j from by omega] at hj1
            exact hj1
          · rw [show k + 1 + m = k + (m + 1) from by omega]
            exact hobs
          · exact hterm

theorem wait_loop_timeout_all (cid : String) (obs : Nat → Option (String × List String))
    (timeout : Nat) :
    ∀ fuel k, (∀ j, j < fuel → nonterminalObs (obs (k + j))) →
      wait_loop cid obs timeout k fuel = .error (.startTimeout timeout) := by
  intro fuel
  induction fuel with
  | zero => intro k _; rfl
  | succ f ih =>
      intro k h
      obtain ⟨st, lg, hobs0, hr, he, hd⟩ := h 0 (by omega)
      unfold wait_loop
      rw [show k + 0 = k from rfl] at hobs0
      rw [hobs0]
      dsimp only
      rw [if_neg hr, if_neg (not_or.mpr ⟨he, hd⟩)]
      apply ih (k + 1)
      intro j hj
      have hj1 := h (j + 1) (by omega)
      rw [show k + (j + 1) = k + 1 + j from by omega] at hj1
      exact hj1

/-- C8: spawn_domain with wait_for_start against a poll trace (one
observation per 0.5s poll, 2*timeout polls before the deadline): when the
runtime reports running at some poll within the timeout (after only
nonterminal reports), it returns a domain id of shape
domain_type-[0-9a-f]x8; when the runtime instead reports exited or dead, it
raises the provisioning failure carrying the last 50 log lines; when every
poll before the deadline reports a nonterminal status, it raises the
timeout provisioning failure. -/
theorem spawn_domain_provisioning (domain_type cid : String) (n : Nat)
    (obs : Nat → Option (String × List String)) (timeout : Nat) :
    (∀ k logs, k < 2 * timeout → (∀ j, j < k → nonterminalObs (obs j)) →
        obs k = some ("running", logs) →
        spawn_domain domain_type n cid obs true timeout =
          .ok (domain_type ++ "-" ++ uuidHexTake8 n) ∧
        matchesDomainIdShape domain_type (domain_type ++ "-" ++ uuidHexTake8 n)) ∧
    (∀ k st logs, k < 2 * timeout → (∀ j, j < k → nonterminalObs (obs j)) →
        obs k = some (st, logs) → (st = "exited" ∨ st = "dead") →
        spawn_domain domain_type n cid obs true timeout =
          .error (.exitedLogs (tailLines 50 logs))) ∧
    ((∀ j, j < 2 * timeout → nonterminalObs (obs j)) →
        spawn_domain domain_type n cid obs true timeout =
          .error (.startTimeout timeout)) := by
  refine ⟨?_, ?_, ?_⟩
  · intro k logs hk hpre hobs
    have hwait : wait_for_container cid obs timeout = .ok () := by
      unfold wait_for_container
      exact wait_loop_ok cid obs timeout logs k 0 (2 * timeout) hk
        (by intro j hj; simpa using hpre j hj) (by simpa using hobs)
    rw [spawn_domain_wait_eq, hwait]
    exact ⟨rfl, matches_shape domain_type n⟩
  · intro k st logs hk hpre hobs hterm
    have hwait : wait_for_container cid obs timeout =
        .error (.exitedLogs (tailLines 50 logs)) := by
      unfold wait_for_container
      exact wait_loop_exit cid obs timeout st logs k 0 (2 * timeout) hk
        (by intro j hj; simpa using hpre j hj) (by simpa using hobs) hterm
    rw [spawn_domain_wait_eq, hwait]
  · intro hall
    have hwait : wait_for_container cid obs timeout = .error (.startTimeout timeout) := by
      unfold wait_for_container
      exact wait_loop_timeout_all cid obs timeout (2 * timeout) 0
        (by intro j hj; simpa using hall j hj)
    rw [spawn_domain_wait_eq, hwait]

/-- Witness: C8 success branch — a trace reporting created then running,
timeout 1s (two polls). -/
theorem spawn_domain_provisioning_witness :
    spawn_domain "backend" 0 "c0"
        (fun k => if k = 0 then some ("created", []) else some ("running", [])) true 1 =
      .ok ("backend" ++ "-" ++ uuidHexTake8 0) ∧
    matchesDomainIdShape "backend" ("backend" ++ "-" ++ uuidHexTake8 0) :=
  (spawn_domain_provisioning "backend" "c0" 0
      (fun k => if k = 0 then some ("created", []) else some ("running", [])) 1).1
    1 [] (by decide)
    (by
      intro j hj
      interval_cases j
      exact ⟨"created", [], rfl, by decide, by decide, by decide⟩)
    (by decide)

end DAN
